import Mathlib

/-!
Verification of the `xc` CLI's cost-tracking / budget-enforcement pipeline and
chunked media-upload state machine, as a shallow embedding of the TypeScript
source.

Conventions of the embedding:
* Dollar amounts are `ℚ` (the source uses exact decimal literals; all amounts
  appearing in the claims are exact in both `ℚ` and IEEE doubles).
* Timestamps are `Int` milliseconds since the epoch, modelling the value of
  `new Date(s).getTime()`; the ISO-8601 string representation itself is
  irrelevant to every claim.
* File-system and network effects are made explicit: the ledger is a
  `List UsageEntry` threaded through functions, the confirm prompt's answer is
  a parameter, and each network operation a code path would perform is an
  element of a `NetOp` trace.
-/

namespace XC

/-- `UsageEntry` from `src/lib/cost.ts`: one record of the usage ledger
(`usage.jsonl`).  `timestamp` is modelled as epoch milliseconds. -/
structure UsageEntry where
  timestamp : Int
  endpoint : String
  method : String
  estimatedCost : ℚ
deriving DecidableEq, Repr

/-- `COST_MAP` from `src/lib/cost.ts`: estimated cost per SDK endpoint. -/
def COST_MAP (endpoint : String) : Option ℚ :=
  match endpoint with
  | "posts.searchRecent" => some 0.01
  | "posts.searchAll" => some 0.02
  | "posts.create" => some 0.01
  | "users.getMe" => some 0.005
  | "users.getByUsername" => some 0.005
  | "users.getPosts" => some 0.005
  | "users.getTimeline" => some 0.005
  | "users.likePost" => some 0.005
  | "users.unlikePost" => some 0.005
  | "usage.get" => some 0.0
  | _ => none

/-- `DEFAULT_COST` from `src/lib/cost.ts`. -/
def DEFAULT_COST : ℚ := 0.005

/-- `METHOD_MAP` from `src/lib/cost.ts`. -/
def METHOD_MAP (endpoint : String) : Option String :=
  match endpoint with
  | "posts.create" => some "POST"
  | "users.likePost" => some "POST"
  | "users.unlikePost" => some "DELETE"
  | _ => none

/-- `estimateCost` from `src/lib/cost.ts`: `COST_MAP[endpoint] ?? DEFAULT_COST`. -/
def estimateCost (endpoint : String) : ℚ :=
  (COST_MAP endpoint).getD DEFAULT_COST

/-- `inferMethod` from `src/lib/cost.ts`: `METHOD_MAP[endpoint] ?? "GET"`. -/
def inferMethod (endpoint : String) : String :=
  (METHOD_MAP endpoint).getD "GET"

/-- The entry built by `logApiCall` in `src/lib/cost.ts` for `endpoint` at
time `nowMs` (the `new Date().toISOString()` instant). -/
def mkUsageEntry (nowMs : Int) (endpoint : String) : UsageEntry :=
  { timestamp := nowMs
    endpoint := endpoint
    method := inferMethod endpoint
    estimatedCost := estimateCost endpoint }

/-- The body of `loadUsageLog` from `src/lib/cost.ts`: iterate over the lines
of `usage.jsonl`, `JSON.parse` each one, keep the successes in order and skip
the lines that throw.  `parseLine` stands for the external JSON parser
(`none` = the line is malformed and `JSON.parse` throws). -/
def loadUsageLog (parseLine : String → Option UsageEntry)
    (lines : List String) : List UsageEntry :=
  lines.foldl
    (fun entries line =>
      match parseLine line with
      | some e => entries ++ [e]
      | none => entries)
    []

/-- `computeSpend` from `src/lib/cost.ts`: sum `estimatedCost` over the
entries whose timestamp is at least `now - windowMs`. -/
def computeSpend (nowMs : Int) (entries : List UsageEntry)
    (windowMs : Int) : ℚ :=
  entries.foldl
    (fun total e =>
      if nowMs - windowMs ≤ e.timestamp then total + e.estimatedCost
      else total)
    0

/-- `computeTodaySpend` from `src/lib/cost.ts`: sum `estimatedCost` over the
entries whose timestamp is at least local midnight (`midnightMs`). -/
def computeTodaySpend (entries : List UsageEntry) (midnightMs : Int) : ℚ :=
  entries.foldl
    (fun total e =>
      if midnightMs ≤ e.timestamp then total + e.estimatedCost
      else total)
    0

/-- `BudgetAction` from `src/lib/budget.ts`. -/
inductive BudgetAction
  | block
  | warn
  | confirm
deriving DecidableEq, Repr

/-- `BudgetConfig` from `src/lib/budget.ts`: `daily` is optional. -/
structure BudgetConfig where
  daily : Option ℚ
  action : BudgetAction
deriving DecidableEq, Repr

/-- `loadBudget` from `src/lib/budget.ts`: the stored config if the budget
file exists, else the default `{ action: "warn" }` (no daily limit). -/
def loadBudget (stored : Option BudgetConfig) : BudgetConfig :=
  stored.getD { daily := none, action := .warn }

/-- The validation in `registerBudgetCommand` (`xc budget set`): the command
accepts `--daily` only when it parses to a number strictly greater than 0. -/
def budgetSetAccepts (daily : ℚ) : Bool :=
  0 < daily

/-- The errors `checkBudget` can throw. -/
inductive BudgetError
  | budgetExceeded
  | userCancelled
deriving DecidableEq, Repr

/-- `checkBudget` from `src/lib/budget.ts`.  The ledger contents, the local
midnight instant and the confirm prompt's answer are explicit parameters.

Source shape: `if (!budget.daily) return;` admits when `daily` is absent —
or equal to `0`, which is falsy in JavaScript.  Otherwise it compares
`todaySpend + callCost` with the limit and branches on the action. -/
def checkBudget (budget : BudgetConfig) (entries : List UsageEntry)
    (midnightMs : Int) (endpoint : String) (confirmYes : Bool) :
    Except BudgetError Unit :=
  match budget.daily with
  | none => .ok ()
  | some daily =>
    if daily = 0 then .ok ()
    else
      let todaySpend := computeTodaySpend entries midnightMs
      let callCost := estimateCost endpoint
      if todaySpend + callCost ≤ daily then .ok ()
      else
        match budget.action with
        | .block => .error .budgetExceeded
        | .warn => .ok ()
        | .confirm => if confirmYes then .ok () else .error .userCancelled

/-- Errors surfaced by an intercepted call: a budget rejection, or a failure
of the underlying SDK operation itself. -/
inductive CallError
  | budget (e : BudgetError)
  | underlying (msg : String)
deriving DecidableEq, Repr

/-- The wrapper installed by `wrapClient` in the client factory: for a call
`client.<ns>.<op>(args)` it derives `endpoint = ns + "." + op`, runs
`checkBudget(endpoint)`, then `logApiCall(endpoint)`, then forwards to the
underlying SDK function.  Result: the call's outcome, the ledger after the
call, and whether the underlying operation was dispatched. -/
def interceptCall {α : Type} (ns op : String) (budget : BudgetConfig)
    (midnightMs nowMs : Int) (confirmYes : Bool) (ledger : List UsageEntry)
    (underlying : Except String α) :
    Except CallError α × List UsageEntry × Bool :=
  let endpoint := ns ++ "." ++ op
  match checkBudget budget ledger midnightMs endpoint confirmYes with
  | .error e => (.error (.budget e), ledger, false)
  | .ok _ =>
    let ledger' := ledger ++ [mkUsageEntry nowMs endpoint]
    match underlying with
    | .ok a => (.ok a, ledger', true)
    | .error msg => (.error (.underlying msg), ledger', true)

/-! ### Media upload (`src/commands/media.ts`) -/

/-- `MIME_MAP` from `src/commands/media.ts`: extension → MIME type. -/
def MIME_MAP (ext : String) : Option String :=
  match ext with
  | ".jpg" => some "image/jpeg"
  | ".jpeg" => some "image/jpeg"
  | ".png" => some "image/png"
  | ".gif" => some "image/gif"
  | ".bmp" => some "image/bmp"
  | ".webp" => some "image/webp"
  | ".tiff" => some "image/tiff"
  | ".mp4" => some "video/mp4"
  | ".webm" => some "video/webm"
  | ".mov" => some "video/quicktime"
  | ".ts" => some "video/mp2t"
  | _ => none

/-- `CATEGORY_MAP` from `src/commands/media.ts`: extension → media category. -/
def CATEGORY_MAP (ext : String) : Option String :=
  match ext with
  | ".jpg" => some "tweet_image"
  | ".jpeg" => some "tweet_image"
  | ".png" => some "tweet_image"
  | ".bmp" => some "tweet_image"
  | ".webp" => some "tweet_image"
  | ".tiff" => some "tweet_image"
  | ".gif" => some "tweet_gif"
  | ".mp4" => some "tweet_video"
  | ".webm" => some "tweet_video"
  | ".mov" => some "tweet_video"
  | ".ts" => some "tweet_video"
  | _ => none

/-- `SIZE_LIMITS` from `src/commands/media.ts` (bytes per category); a
category outside the table has no limit entry. -/
def SIZE_LIMITS (category : String) : Option Nat :=
  match category with
  | "tweet_image" => some (5 * 1024 * 1024)
  | "tweet_gif" => some (15 * 1024 * 1024)
  | "tweet_video" => some (512 * 1024 * 1024)
  | _ => none

/-- `CHUNK_SIZE` from `src/commands/media.ts`: 5 MiB. -/
def CHUNK_SIZE : Nat := 5 * 1024 * 1024

/-- The APPEND loop of `chunkedUpload`: starting from `bytesRead` bytes
already sent and the next index `segmentIndex`, it emits one
`(segment_index, chunkLen)` pair per iteration with
`chunkLen = min(CHUNK_SIZE, fileSize - bytesRead)` until
`bytesRead ≥ fileSize`. -/
def appendLoop (fileSize bytesRead segmentIndex : Nat) : List (Nat × Nat) :=
  if h : bytesRead < fileSize then
    let chunkLen := min CHUNK_SIZE (fileSize - bytesRead)
    (segmentIndex, chunkLen) ::
      appendLoop fileSize (bytesRead + chunkLen) (segmentIndex + 1)
  else []
termination_by fileSize - bytesRead
decreasing_by
  have hc : 0 < min CHUNK_SIZE (fileSize - bytesRead) :=
    lt_min (by norm_num [CHUNK_SIZE]) (Nat.sub_pos_of_lt h)
  omega

/-- One network operation performed by the media-upload code paths.
`sdkCall endpoint` is a method call on the proxy-wrapped SDK client
(`client.media.…`), which `wrapClient` intercepts; `rawFetch` is a direct
`fetch()` of the APPEND URL with a `segment_index` form field, which never
touches the wrapped client. -/
inductive NetOp
  | sdkCall (endpoint : String)
  | rawFetch (url : String) (segmentIndex : Nat)
deriving DecidableEq, Repr

/-- Whether a network operation goes through the Call Interceptor
(`wrapClient`'s proxy): exactly the SDK-client method calls do; a direct
`fetch()` bypasses the proxy. -/
def passesInterceptor : NetOp → Bool
  | .sdkCall _ => true
  | .rawFetch _ _ => false

/-- Whether a network operation is an APPEND segment transfer.  In
`chunkedUpload` the APPEND segments are exactly the direct `fetch()` calls
of `https://api.x.com/2/media/upload/<id>/append`. -/
def isAppendSegment : NetOp → Bool
  | .sdkCall _ => false
  | .rawFetch _ _ => true

/-- The APPEND URL built in `chunkedUpload`. -/
def appendUrl (mediaId : String) : String :=
  "https://api.x.com/2/media/upload/" ++ mediaId ++ "/append"

/-- The sequence of network operations `chunkedUpload` performs on its
success path: the `initializeUpload` SDK call, one raw `fetch` per APPEND
segment, the `finalizeUpload` SDK call, and — when the category is video or
the FINALIZE response carries `processingInfo` — `statusPolls` calls of
`getUploadStatus` made by `waitForProcessing`. -/
def chunkedUploadOps (fileSize : Nat) (mediaId : String)
    (videoOrProcessing : Bool) (statusPolls : Nat) : List NetOp :=
  [NetOp.sdkCall "media.initializeUpload"]
    ++ (appendLoop fileSize 0 0).map
        (fun seg => NetOp.rawFetch (appendUrl mediaId) seg.1)
    ++ [NetOp.sdkCall "media.finalizeUpload"]
    ++ (if videoOrProcessing then
          (List.range statusPolls).map
            (fun _ => NetOp.sdkCall "media.getUploadStatus")
        else [])

/-- The endpoints of the operations in a trace that pass through the Call
Interceptor — by `wrapClient`, exactly these get a budget check and a
`UsageRecord` appended to the ledger, one each, in order. -/
def interceptedEndpoints (ops : List NetOp) : List String :=
  ops.filterMap (fun op =>
    match op with
    | .sdkCall e => some e
    | .rawFetch _ _ => none)

/-- Pre-flight errors of `uploadMedia`. -/
inductive UploadError
  | unsupportedType (ext : String)
  | fileTooLarge
deriving DecidableEq, Repr

/-- The routing and validation of `uploadMedia` in `src/commands/media.ts`:
resolve the extension to a MIME type (unknown extension → throw before any
client is created), resolve the category (default `tweet_image`) and its
size limit, reject oversized files before any client is created, then route
`tweet_image` to the one-shot `client.media.upload` and everything else to
`chunkedUpload`.  The result is the list of network operations performed on
the success path. -/
def uploadMediaPlan (ext : String) (fileSize : Nat) (mediaId : String)
    (videoOrProcessing : Bool) (statusPolls : Nat) :
    Except UploadError (List NetOp) :=
  match MIME_MAP ext with
  | none => .error (.unsupportedType ext)
  | some _ =>
    let mediaCategory := (CATEGORY_MAP ext).getD "tweet_image"
    let sizeLimit := (SIZE_LIMITS mediaCategory).getD (5 * 1024 * 1024)
    if fileSize > sizeLimit then .error .fileTooLarge
    else if mediaCategory = "tweet_image" then
      .ok [NetOp.sdkCall "media.upload"]
    else
      .ok (chunkedUploadOps fileSize mediaId videoOrProcessing statusPolls)

/-- The network operations actually performed for a plan: a pre-flight error
is thrown before `getClient` is even called, so no operation happens. -/
def planOps : Except UploadError (List NetOp) → List NetOp
  | .ok ops => ops
  | .error _ => []

/-! ### Processing poll loop (`waitForProcessing`) -/

/-- The `processingInfo` object of an upload-status response
(`UploadStatusData` in `src/commands/media.ts`); every field is optional. -/
structure ProcessingInfo where
  state : Option String
  checkAfterSecs : Option Nat
  errorMessage : Option String
deriving DecidableEq, Repr

/-- Outcome of `waitForProcessing`, together with the number of status
queries performed. -/
inductive PollResult
  | success (queries : Nat)
  | processingFailed (msg : String) (queries : Nat)
  | timeout (queries : Nat)
deriving DecidableEq, Repr

/-- The body of `waitForProcessing`'s `for` loop.  `statuses i` is the
`processingInfo` of the response to the `i`-th status query (`none` when the
response carries no `processingInfo`).  `attemptsLeft` counts the loop
iterations still allowed, `i` the queries already made. -/
def pollLoop (statuses : Nat → Option ProcessingInfo) :
    Nat → Nat → PollResult
  | 0, i => .timeout i
  | attemptsLeft + 1, i =>
    match statuses i with
    | none => .success (i + 1)
    | some info =>
      if info.state = some "succeeded" then .success (i + 1)
      else if info.state = some "failed" then
        .processingFailed (info.errorMessage.getD "unknown error") (i + 1)
      else pollLoop statuses attemptsLeft (i + 1)

/-- `maxAttempts` in `waitForProcessing`. -/
def maxAttempts : Nat := 60

/-- `waitForProcessing` from `src/commands/media.ts`: poll the status
endpoint up to `maxAttempts = 60` times; a missing `processingInfo` or state
`"succeeded"` returns success, state `"failed"` throws with the server
message (default `"unknown error"`), anything else sleeps and retries;
exhausting the attempts throws the timeout error. -/
def waitForProcessing (statuses : Nat → Option ProcessingInfo) : PollResult :=
  pollLoop statuses maxAttempts 0

/-- The status of each poll response that makes the loop continue: a present
`processingInfo` whose state is `"pending"` or `"in_progress"` (the two
non-terminal states of the upload-status API). -/
def nonTerminalStatus : Option ProcessingInfo → Bool
  | some info =>
      info.state == some "pending" || info.state == some "in_progress"
  | none => false

/-!
## Theorems
-/

deriving instance DecidableEq for Except

/-- **C10** — A persisted daily limit of `0` is falsy in JavaScript, so
`checkBudget` returns immediately: every call is admitted, for every ledger
content, every configured action and every prompt answer, while the
`xc budget set` command rejects `--daily 0` as non-positive. -/
theorem checkBudget_zero_daily_admits :
    (∀ (action : BudgetAction) (entries : List UsageEntry) (midnightMs : Int)
        (endpoint : String) (confirmYes : Bool),
      checkBudget { daily := some 0, action := action } entries midnightMs
          endpoint confirmYes = .ok ()) ∧
    budgetSetAccepts 0 = false := by
  refine ⟨fun action entries midnightMs endpoint confirmYes => ?_, by decide⟩
  simp [checkBudget]

/-- **C4** — With `dailyLimit = 2.00`, `action = block` and a recorded spend
of `1.99` today, a call costing `0.02` (`posts.searchAll`) is rejected with
the BudgetExceeded error, while a call costing `0.01` (`posts.create`) is
admitted. -/
theorem checkBudget_boundary_example :
    checkBudget { daily := some 2, action := .block }
        [{ timestamp := 0, endpoint := "posts.searchRecent", method := "GET",
           estimatedCost := 1.99 }] 0 "posts.searchAll" false =
      .error .budgetExceeded ∧
    checkBudget { daily := some 2, action := .block }
        [{ timestamp := 0, endpoint := "posts.searchRecent", method := "GET",
           estimatedCost := 1.99 }] 0 "posts.create" false = .ok () := by
  constructor <;>
    norm_num [checkBudget, computeTodaySpend, estimateCost, COST_MAP,
      DEFAULT_COST]

/-- **C2** — For every intercepted invocation: a budget rejection propagates,
the underlying call is not dispatched and the ledger is unchanged; on
admission exactly one `UsageRecord` is appended, whether or not the
underlying call fails. -/
theorem interceptCall_ledger_spec {α : Type} (ns op : String)
    (budget : BudgetConfig) (midnightMs nowMs : Int) (confirmYes : Bool)
    (ledger : List UsageEntry) (underlying : Except String α) :
    (∀ e : BudgetError,
      checkBudget budget ledger midnightMs (ns ++ "." ++ op) confirmYes =
          .error e →
        interceptCall ns op budget midnightMs nowMs confirmYes ledger
            underlying =
          (.error (.budget e), ledger, false)) ∧
    (checkBudget budget ledger midnightMs (ns ++ "." ++ op) confirmYes =
        .ok () →
      (interceptCall ns op budget midnightMs nowMs confirmYes ledger
          underlying).2.1 =
        ledger ++ [mkUsageEntry nowMs (ns ++ "." ++ op)] ∧
      (interceptCall ns op budget midnightMs nowMs confirmYes ledger
          underlying).2.2 = true) := by
  constructor
  · intro e h
    simp [interceptCall, h]
  · intro h
    cases underlying <;> simp [interceptCall, h]

/-- Closed witness for `interceptCall_ledger_spec`: with a one-cent limit,
`block` action and two cents already spent today, `posts.create` is rejected
and the ledger keeps its single entry; with no limit configured, an
admitted `posts.create` whose underlying call fails with HTTP 500 still
appends exactly its record. -/
theorem interceptCall_ledger_spec_witness :
    interceptCall "posts" "create" { daily := some 0.01, action := .block }
        0 5 false [mkUsageEntry 0 "posts.searchAll"]
        (Except.error ("HTTP 500 upstream") : Except String Nat) =
      (.error (.budget .budgetExceeded), [mkUsageEntry 0 "posts.searchAll"],
        false) ∧
    (interceptCall "posts" "create" { daily := none, action := .warn } 0 5
        false [] (Except.error ("HTTP 500 upstream") : Except String Nat)).2.1 =
      [] ++ [mkUsageEntry 5 "posts.create"] :=
  ⟨(interceptCall_ledger_spec "posts" "create"
        { daily := some 0.01, action := .block } 0 5 false
        [mkUsageEntry 0 "posts.searchAll"] (Except.error "HTTP 500 upstream")).1
      .budgetExceeded
      (by norm_num [show ("posts" ++ "." ++ "create" : String) = "posts.create"
          from rfl, checkBudget, computeTodaySpend, estimateCost, COST_MAP,
          DEFAULT_COST, mkUsageEntry, inferMethod, METHOD_MAP]),
   ((interceptCall_ledger_spec "posts" "create" { daily := none, action := .warn }
        0 5 false [] (Except.error "HTTP 500 upstream")).2
      (by norm_num [checkBudget])).1⟩

/-- **C3** — The budget check admits when no daily limit is configured and
when `todaySpend + callCost ≤ dailyLimit`; when the sum exceeds a (positive)
limit and the action is `block`, it fails with the BudgetExceeded error and
the interceptor never dispatches the underlying call. -/
theorem checkBudget_state_machine (entries : List UsageEntry)
    (midnightMs nowMs : Int) (ns op : String) (action : BudgetAction)
    (confirmYes : Bool) :
    checkBudget (loadBudget none) entries midnightMs (ns ++ "." ++ op)
        confirmYes = .ok () ∧
    (∀ limit : ℚ,
      computeTodaySpend entries midnightMs + estimateCost (ns ++ "." ++ op) ≤
          limit →
        checkBudget { daily := some limit, action := action } entries
          midnightMs (ns ++ "." ++ op) confirmYes = .ok ()) ∧
    (∀ limit : ℚ, 0 < limit →
      limit <
          computeTodaySpend entries midnightMs +
            estimateCost (ns ++ "." ++ op) →
        checkBudget { daily := some limit, action := .block } entries
            midnightMs (ns ++ "." ++ op) confirmYes =
          .error .budgetExceeded ∧
        ∀ (α : Type) (underlying : Except String α),
          (interceptCall ns op { daily := some limit, action := .block }
              midnightMs nowMs confirmYes entries underlying).2.2 = false) := by
  refine ⟨by simp [checkBudget, loadBudget], fun limit hle => ?_,
    fun limit hpos hgt => ?_⟩
  · by_cases h0 : limit = 0
    · simp [checkBudget, h0]
    · simp [checkBudget, h0, hle]
  · have h0 : limit ≠ 0 := ne_of_gt hpos
    have hnot : ¬ (computeTodaySpend entries midnightMs +
        estimateCost (ns ++ "." ++ op) ≤ limit) := not_le.mpr hgt
    have hcheck : checkBudget { daily := some limit, action := .block }
        entries midnightMs (ns ++ "." ++ op) confirmYes =
          .error .budgetExceeded := by
      simp [checkBudget, h0, hnot]
    refine ⟨hcheck, fun α underlying => ?_⟩
    simp [interceptCall, hcheck]

/-- Closed witness for `checkBudget_state_machine`: with an empty ledger,
the `posts.create` cost of one cent is admitted against a one-dollar limit
and rejected (without dispatch) by a half-cent `block` limit. -/
theorem checkBudget_state_machine_witness :
    checkBudget { daily := some 1, action := .warn } [] 0 "posts.create"
        false = .ok () ∧
    checkBudget { daily := some 0.005, action := .block } [] 0 "posts.create"
        false = .error .budgetExceeded ∧
    (interceptCall "posts" "create" { daily := some 0.005, action := .block }
        0 7 false [] (Except.ok 3 : Except String Nat)).2.2 = false := by
  have hstr : ("posts" ++ "." ++ "create" : String) = "posts.create" := rfl
  have hspend : computeTodaySpend [] 0 = 0 := rfl
  have hcost : estimateCost "posts.create" = 0.01 := rfl
  have hok1 := (checkBudget_state_machine [] 0 7 "posts" "create" .warn
      false).2.1 1 (by rw [hstr, hspend, hcost]; norm_num)
  have hblock := (checkBudget_state_machine [] 0 7 "posts" "create" .block
      false).2.2 0.005 (by norm_num)
    (by rw [hstr, hspend, hcost]; norm_num)
  exact ⟨hok1, hblock.1, hblock.2 Nat (Except.ok 3)⟩

/-- The accumulating loop of `loadUsageLog` collects, after any prefix
already accumulated, exactly the successfully parsed lines in order. -/
theorem loadUsageLog_loop_eq (parseLine : String → Option UsageEntry) :
    ∀ (lines : List String) (acc : List UsageEntry),
      lines.foldl
          (fun entries line =>
            match parseLine line with
            | some e => entries ++ [e]
            | none => entries) acc =
        acc ++ lines.filterMap parseLine := by
  intro lines
  induction lines with
  | nil => simp
  | cons l ls ih =>
    intro acc
    rw [List.foldl_cons, List.filterMap_cons]
    cases h : parseLine l <;> simp [h, ih]

/-- **C9** — `loadUsageLog` returns exactly the parseable entries in write
order, skipping malformed lines; deleting one malformed line from the file
does not change the result, so the well-formed entries around it all
survive. -/
theorem loadUsageLog_tolerant (parseLine : String → Option UsageEntry)
    (lines : List String) :
    loadUsageLog parseLine lines = lines.filterMap parseLine ∧
    (∀ (pre post : List String) (bad : String), parseLine bad = none →
      loadUsageLog parseLine (pre ++ bad :: post) =
        loadUsageLog parseLine (pre ++ post)) := by
  constructor
  · exact loadUsageLog_loop_eq parseLine lines []
  · intro pre post bad hbad
    rw [loadUsageLog, loadUsageLog, loadUsageLog_loop_eq,
      loadUsageLog_loop_eq]
    simp [hbad]

/-- Closed witness for `loadUsageLog_tolerant`: a parser that accepts only
the line `"good"` skips an interposed `"bad"` line, and both surrounding
well-formed entries survive. -/
theorem loadUsageLog_tolerant_witness :
    loadUsageLog
        (fun s => if s = "good" then some (mkUsageEntry 0 "usage.get")
          else none)
        (["good"] ++ "bad" :: ["good"]) =
      loadUsageLog
        (fun s => if s = "good" then some (mkUsageEntry 0 "usage.get")
          else none)
        (["good"] ++ ["good"]) :=
  (loadUsageLog_tolerant
      (fun s => if s = "good" then some (mkUsageEntry 0 "usage.get")
        else none) []).2
    ["good"] ["good"] "bad" (by simp)

/-- The spend-summing loop of `computeSpend` is pointwise monotone: a later
cutoff admits fewer entries, so with non-negative costs and a pointwise
smaller accumulator it yields a smaller total. -/
theorem computeSpend_loop_mono (c1 c2 : Int) (hc : c2 ≤ c1) :
    ∀ (entries : List UsageEntry),
      (∀ e ∈ entries, 0 ≤ e.estimatedCost) →
      ∀ a1 a2 : ℚ, a1 ≤ a2 →
        entries.foldl
            (fun total e =>
              if c1 ≤ e.timestamp then total + e.estimatedCost else total)
            a1 ≤
          entries.foldl
            (fun total e =>
              if c2 ≤ e.timestamp then total + e.estimatedCost else total)
            a2 := by
  intro entries
  induction entries with
  | nil => intro _ a1 a2 ha; simpa using ha
  | cons e es ih =>
    intro hpos a1 a2 ha
    have hepos : 0 ≤ e.estimatedCost := hpos e (by simp)
    have hrest : ∀ x ∈ es, 0 ≤ x.estimatedCost :=
      fun x hx => hpos x (List.mem_cons_of_mem e hx)
    rw [List.foldl_cons, List.foldl_cons]
    by_cases h1 : c1 ≤ e.timestamp
    · have h2 : c2 ≤ e.timestamp := le_trans hc h1
      rw [if_pos h1, if_pos h2]
      exact ih hrest _ _ (by linarith)
    · rw [if_neg h1]
      by_cases h2 : c2 ≤ e.timestamp
      · rw [if_pos h2]
        exact ih hrest _ _ (by linarith)
      · rw [if_neg h2]
        exact ih hrest _ _ ha

/-- **C8** — With non-negative per-record costs and a fixed "now", the
windowed spend is monotone in the window: `W1 ≤ W2` implies
`computeSpend now entries W1 ≤ computeSpend now entries W2`. -/
theorem computeSpend_monotone (nowMs : Int) (entries : List UsageEntry)
    (hpos : ∀ e ∈ entries, 0 ≤ e.estimatedCost) (w1 w2 : Int)
    (hw1 : 0 ≤ w1) (hw : w1 ≤ w2) :
    computeSpend nowMs entries w1 ≤ computeSpend nowMs entries w2 := by
  have hc : nowMs - w2 ≤ nowMs - w1 := by omega
  exact computeSpend_loop_mono (nowMs - w1) (nowMs - w2) hc entries hpos 0 0
    le_rfl

/-- Closed witness for `computeSpend_monotone`: one entry of cost `1` at the
epoch, windows of one hour and one day. -/
theorem computeSpend_monotone_witness :
    computeSpend 0
        [{ timestamp := 0, endpoint := "usage.get", method := "GET",
           estimatedCost := 1 }] 3600000 ≤
      computeSpend 0
        [{ timestamp := 0, endpoint := "usage.get", method := "GET",
           estimatedCost := 1 }] 86400000 :=
  computeSpend_monotone 0
    [{ timestamp := 0, endpoint := "usage.get", method := "GET",
       estimatedCost := 1 }]
    (by intro e he; simp at he; rw [he]; norm_num) 3600000 86400000
    (by norm_num) (by norm_num)

/-- Each iteration of the APPEND loop reads a positive chunk. -/
theorem appendLoop_chunk_pos (fileSize bytesRead : Nat)
    (h : bytesRead < fileSize) :
    0 < min CHUNK_SIZE (fileSize - bytesRead) :=
  lt_min (by norm_num [CHUNK_SIZE]) (Nat.sub_pos_of_lt h)

/-- The chunk lengths emitted by the APPEND loop sum to the bytes
remaining when it starts. -/
theorem appendLoop_sum (fileSize bytesRead segmentIndex : Nat) :
    ((appendLoop fileSize bytesRead segmentIndex).map Prod.snd).sum =
      fileSize - bytesRead := by
  induction bytesRead, segmentIndex using appendLoop.induct fileSize with
  | case1 br si h cl ih =>
    rw [appendLoop, dif_pos h]
    simp only [List.map_cons, List.sum_cons]
    rw [ih]
    have hc := appendLoop_chunk_pos fileSize br h
    omega
  | case2 br si h =>
    rw [appendLoop, dif_neg h]
    simp only [List.map_nil, List.sum_nil]
    omega

/-- The APPEND loop performs exactly `⌈remaining / CHUNK_SIZE⌉`
iterations. -/
theorem appendLoop_length (fileSize bytesRead segmentIndex : Nat) :
    (appendLoop fileSize bytesRead segmentIndex).length =
      (fileSize - bytesRead + CHUNK_SIZE - 1) / CHUNK_SIZE := by
  induction bytesRead, segmentIndex using appendLoop.induct fileSize with
  | case1 br si h cl ih =>
    rw [appendLoop, dif_pos h]
    simp only [List.length_cons]
    rw [ih]
    have hcl : cl = min CHUNK_SIZE (fileSize - br) := rfl
    have hc := appendLoop_chunk_pos fileSize br h
    simp only [CHUNK_SIZE] at hcl hc ⊢
    omega
  | case2 br si h =>
    rw [appendLoop, dif_neg h]
    simp only [List.length_nil]
    have hz : fileSize - br = 0 := by omega
    rw [hz]
    norm_num [CHUNK_SIZE]

/-- The `segment_index` fields emitted by the APPEND loop are consecutive,
starting at the initial index: each index is used exactly once and the
sequence is strictly increasing. -/
theorem appendLoop_indices (fileSize bytesRead segmentIndex : Nat) :
    (appendLoop fileSize bytesRead segmentIndex).map Prod.fst =
      List.range' segmentIndex
        (appendLoop fileSize bytesRead segmentIndex).length := by
  induction bytesRead, segmentIndex using appendLoop.induct fileSize with
  | case1 br si h cl ih =>
    rw [appendLoop, dif_pos h]
    simp only [List.map_cons, List.length_cons]
    rw [ih, List.range'_succ]
  | case2 br si h =>
    rw [appendLoop, dif_neg h]
    simp

/-- No chunk emitted by the APPEND loop exceeds `CHUNK_SIZE`. -/
theorem appendLoop_chunk_le (fileSize bytesRead segmentIndex : Nat) :
    ∀ seg ∈ appendLoop fileSize bytesRead segmentIndex,
      seg.2 ≤ CHUNK_SIZE := by
  induction bytesRead, segmentIndex using appendLoop.induct fileSize with
  | case1 br si h cl ih =>
    rw [appendLoop, dif_pos h]
    intro seg hseg
    rcases List.mem_cons.mp hseg with hs | hs
    · rw [hs]
      exact min_le_left _ _
    · exact ih seg hs
  | case2 br si h =>
    rw [appendLoop, dif_neg h]
    intro seg hseg
    simp at hseg

/-- A prefix of a list of naturals sums to at most the whole list. -/
theorem sum_take_le_sum (l : List Nat) (k : Nat) :
    (l.take k).sum ≤ l.sum := by
  conv_rhs => rw [← List.take_append_drop k l]
  rw [List.sum_append]
  exact Nat.le_add_right _ _

/-- **C5** — For every `totalBytes`, the APPEND loop sends exactly
`⌈totalBytes / 5 MiB⌉` segments; the indices are `0, 1, …` each used exactly
once; every chunk is at most 5 MiB; the chunk sizes sum to `totalBytes` and
every partial sum stays within `totalBytes`; a 20 MiB file yields exactly 4
segments with indices `0..3`. -/
theorem chunked_append_segment_spec (totalBytes : Nat) :
    (appendLoop totalBytes 0 0).length =
      (totalBytes + CHUNK_SIZE - 1) / CHUNK_SIZE ∧
    (appendLoop totalBytes 0 0).map Prod.fst =
      List.range ((totalBytes + CHUNK_SIZE - 1) / CHUNK_SIZE) ∧
    ((appendLoop totalBytes 0 0).map Prod.snd).all
      (fun len => len ≤ CHUNK_SIZE) = true ∧
    ((appendLoop totalBytes 0 0).map Prod.snd).sum = totalBytes ∧
    (∀ k, (((appendLoop totalBytes 0 0).map Prod.snd).take k).sum ≤
      totalBytes) ∧
    (appendLoop (20 * 1024 * 1024) 0 0).map Prod.fst = [0, 1, 2, 3] := by
  have hlen : ∀ t : Nat, (appendLoop t 0 0).length =
      (t + CHUNK_SIZE - 1) / CHUNK_SIZE := by
    intro t
    have := appendLoop_length t 0 0
    simpa using this
  have hidx : ∀ t : Nat, (appendLoop t 0 0).map Prod.fst =
      List.range ((t + CHUNK_SIZE - 1) / CHUNK_SIZE) := by
    intro t
    rw [appendLoop_indices, hlen, List.range_eq_range']
  have hsum : ((appendLoop totalBytes 0 0).map Prod.snd).sum = totalBytes := by
    simpa using appendLoop_sum totalBytes 0 0
  refine ⟨hlen totalBytes, hidx totalBytes, ?_, hsum, fun k => ?_, ?_⟩
  · rw [List.all_eq_true]
    intro x hx
    rcases List.mem_map.mp hx with ⟨seg, hseg, rfl⟩
    simpa using appendLoop_chunk_le totalBytes 0 0 seg hseg
  · calc (((appendLoop totalBytes 0 0).map Prod.snd).take k).sum ≤
        ((appendLoop totalBytes 0 0).map Prod.snd).sum :=
          sum_take_le_sum _ k
    _ = totalBytes := hsum
  · rw [hidx]
    have h4 : (20 * 1024 * 1024 + CHUNK_SIZE - 1) / CHUNK_SIZE = 4 := by
      norm_num [CHUNK_SIZE]
    rw [h4]
    rfl

/-- Decomposition of a chunked upload's operation trace: the APPEND
segments are exactly `⌈fileSize / CHUNK_SIZE⌉` raw fetches, none of which
passes the Call Interceptor, and the intercepted (budget-checked and
ledger-logged) endpoints are exactly INIT, FINALIZE and the status polls. -/
theorem chunkedUploadOps_parts (fileSize : Nat) (mediaId : String)
    (vp : Bool) (polls : Nat) :
    ((chunkedUploadOps fileSize mediaId vp polls).filter
        isAppendSegment).length =
      (fileSize + CHUNK_SIZE - 1) / CHUNK_SIZE ∧
    (chunkedUploadOps fileSize mediaId vp polls).filter
        (fun op => isAppendSegment op && passesInterceptor op) = [] ∧
    ((chunkedUploadOps fileSize mediaId vp polls).filter
        isAppendSegment).all (fun op => !passesInterceptor op) = true ∧
    interceptedEndpoints (chunkedUploadOps fileSize mediaId vp polls) =
      ["media.initializeUpload", "media.finalizeUpload"] ++
        (if vp then List.replicate polls "media.getUploadStatus" else []) := by
  have happend : (chunkedUploadOps fileSize mediaId vp polls).filter
      isAppendSegment =
        (appendLoop fileSize 0 0).map
          (fun seg => NetOp.rawFetch (appendUrl mediaId) seg.1) := by
    have hf : (isAppendSegment ∘ fun seg : Nat × Nat =>
        NetOp.rawFetch (appendUrl mediaId) seg.1) = fun _ => true := rfl
    simp [chunkedUploadOps, List.filter_append, List.filter_map,
      isAppendSegment, hf]
    cases vp <;> simp [List.filter_map, isAppendSegment, hf]
  refine ⟨?_, ?_, ?_, ?_⟩
  · rw [happend]
    simp [appendLoop_length]
  · simp [chunkedUploadOps, List.filter_append, List.filter_map,
      isAppendSegment, passesInterceptor, Function.comp]
    cases vp <;> simp [List.filter_map, Function.comp, isAppendSegment,
      passesInterceptor]
  · rw [happend, List.all_eq_true]
    intro x hx
    rcases List.mem_map.mp hx with ⟨seg, hseg, rfl⟩
    simp [passesInterceptor]
  · simp [chunkedUploadOps, interceptedEndpoints, List.filterMap_append,
      List.filterMap_map, Function.comp]
    cases vp <;>
      simp [List.filterMap_map, Function.comp, List.map_const']

/-- **C1** (amended) — Each APPEND segment of a chunked upload is sent as a
direct `fetch`, not through the Call Interceptor: none of the
`⌈fileSize / 5 MiB⌉` segments is budget-checked or recorded in the Usage
Ledger.  The intercepted endpoints of the upload are exactly the INIT,
FINALIZE and status-poll SDK calls. -/
theorem chunked_appends_bypass_interceptor (fileSize : Nat)
    (mediaId : String) (vp : Bool) (polls : Nat) :
    ((chunkedUploadOps fileSize mediaId vp polls).filter
        isAppendSegment).length =
      (fileSize + CHUNK_SIZE - 1) / CHUNK_SIZE ∧
    ((chunkedUploadOps fileSize mediaId vp polls).filter
        isAppendSegment).all (fun op => !passesInterceptor op) = true ∧
    interceptedEndpoints (chunkedUploadOps fileSize mediaId vp polls) =
      ["media.initializeUpload", "media.finalizeUpload"] ++
        (if vp then List.replicate polls "media.getUploadStatus" else []) :=
  ⟨(chunkedUploadOps_parts fileSize mediaId vp polls).1,
   (chunkedUploadOps_parts fileSize mediaId vp polls).2.2.1,
   (chunkedUploadOps_parts fileSize mediaId vp polls).2.2.2⟩

/-- **C1** (counterexample) — In the 20 MiB chunked upload the claim
quantifies over, there are four APPEND segment operations, yet not one of
them passes the Call Interceptor, and the usage ledger records only the
INIT, FINALIZE and status-poll endpoints. -/
theorem chunked_append_intercepted_cex :
    ((chunkedUploadOps (20 * 1024 * 1024) "m1" true 1).filter
        isAppendSegment).length = 4 ∧
    (chunkedUploadOps (20 * 1024 * 1024) "m1" true 1).filter
        (fun op => isAppendSegment op && passesInterceptor op) = [] ∧
    interceptedEndpoints (chunkedUploadOps (20 * 1024 * 1024) "m1" true 1) =
      ["media.initializeUpload", "media.finalizeUpload",
        "media.getUploadStatus"] := by
  have h := chunkedUploadOps_parts (20 * 1024 * 1024) "m1" true 1
  refine ⟨?_, h.2.1, ?_⟩
  · rw [h.1]
    norm_num [CHUNK_SIZE]
  · rw [h.2.2.2]
    rfl

/-- **C7** — An unsupported extension fails with the UnsupportedType error
and an oversized file with the FileTooLarge error, both before any network
operation (the plan performs no operation, so nothing is intercepted and no
`UsageRecord` can be logged); the category ceilings are 5 MiB (image),
15 MiB (gif) and 512 MiB (video). -/
theorem uploadMedia_preflight (ext : String) (fileSize : Nat)
    (mediaId : String) (vp : Bool) (polls : Nat) :
    (MIME_MAP ext = none →
      uploadMediaPlan ext fileSize mediaId vp polls =
          .error (.unsupportedType ext) ∧
        planOps (uploadMediaPlan ext fileSize mediaId vp polls) = []) ∧
    (MIME_MAP ext ≠ none →
      fileSize >
          (SIZE_LIMITS ((CATEGORY_MAP ext).getD "tweet_image")).getD
            (5 * 1024 * 1024) →
      uploadMediaPlan ext fileSize mediaId vp polls = .error .fileTooLarge ∧
        planOps (uploadMediaPlan ext fileSize mediaId vp polls) = [] ∧
        interceptedEndpoints
          (planOps (uploadMediaPlan ext fileSize mediaId vp polls)) = []) ∧
    SIZE_LIMITS "tweet_image" = some (5 * 1024 * 1024) ∧
    SIZE_LIMITS "tweet_gif" = some (15 * 1024 * 1024) ∧
    SIZE_LIMITS "tweet_video" = some (512 * 1024 * 1024) := by
  refine ⟨fun hmime => ?_, fun hmime hsize => ?_, rfl, rfl, rfl⟩
  · rw [uploadMediaPlan, hmime]
    exact ⟨rfl, rfl⟩
  · rcases Option.ne_none_iff_exists'.mp hmime with ⟨m, hm⟩
    rw [uploadMediaPlan, hm]
    simp [if_pos hsize, planOps, interceptedEndpoints]

/-- Closed witness for `uploadMedia_preflight`: a `.xyz` file is rejected as
unsupported, and a 600 MiB `.mp4` video is rejected as too large with no
network operation planned. -/
theorem uploadMedia_preflight_witness :
    uploadMediaPlan ".xyz" 100 "m1" false 0 =
        .error (.unsupportedType ".xyz") ∧
    uploadMediaPlan ".mp4" (600 * 1024 * 1024) "m1" true 0 =
        .error .fileTooLarge ∧
    planOps (uploadMediaPlan ".mp4" (600 * 1024 * 1024) "m1" true 0) = [] :=
  ⟨((uploadMedia_preflight ".xyz" 100 "m1" false 0).1 rfl).1,
   ((uploadMedia_preflight ".mp4" (600 * 1024 * 1024) "m1" true 0).2.1
      (by simp [MIME_MAP]) (by norm_num [CATEGORY_MAP, SIZE_LIMITS])).1,
   ((uploadMedia_preflight ".mp4" (600 * 1024 * 1024) "m1" true 0).2.1
      (by simp [MIME_MAP]) (by norm_num [CATEGORY_MAP, SIZE_LIMITS])).2.1⟩

/-- A non-terminal (`pending`/`in-progress`) status is neither the
`succeeded` nor the `failed` state. -/
theorem nonTerminal_states {info : ProcessingInfo}
    (h : nonTerminalStatus (some info) = true) :
    info.state ≠ some "succeeded" ∧ info.state ≠ some "failed" := by
  simp only [nonTerminalStatus, Bool.or_eq_true, beq_iff_eq] at h
  rcases h with h | h <;> simp [h]

/-- If every status consulted while fuel lasts is non-terminal, the poll
loop exhausts its attempts and times out after exactly `fuel` more
queries. -/
theorem pollLoop_timeout (statuses : Nat → Option ProcessingInfo) :
    ∀ (fuel i : Nat),
      (∀ j, j < fuel → nonTerminalStatus (statuses (i + j)) = true) →
      pollLoop statuses fuel i = .timeout (i + fuel) := by
  intro fuel
  induction fuel with
  | zero => intro i _; simp [pollLoop]
  | succ n ih =>
    intro i h
    have h0 : nonTerminalStatus (statuses i) = true := by
      simpa using h 0 (Nat.succ_pos n)
    cases hst : statuses i with
    | none => rw [hst] at h0; simp [nonTerminalStatus] at h0
    | some info =>
      rw [hst] at h0
      obtain ⟨hns, hnf⟩ := nonTerminal_states h0
      have hrec := ih (i + 1) (fun j hj => by
        have hx := h (j + 1) (by omega)
        rw [show i + 1 + j = i + (j + 1) from by omega]
        exact hx)
      simp only [pollLoop, hst, if_neg hns, if_neg hnf]
      rw [hrec, show i + 1 + n = i + (n + 1) from by omega]

/-- If the first `k` statuses are non-terminal and the `k`-th carries the
`failed` state, the poll loop fails with the server message after exactly
`k + 1` queries. -/
theorem pollLoop_failed (statuses : Nat → Option ProcessingInfo) :
    ∀ (fuel k i : Nat) (info : ProcessingInfo), k < fuel →
      (∀ j, j < k → nonTerminalStatus (statuses (i + j)) = true) →
      statuses (i + k) = some info →
      info.state = some "failed" →
      pollLoop statuses fuel i =
        .processingFailed (info.errorMessage.getD "unknown error")
          (i + k + 1) := by
  intro fuel
  induction fuel with
  | zero => intro k i info hk; omega
  | succ n ih =>
    intro k i info hk hpre hst hstate
    cases k with
    | zero =>
      rw [Nat.add_zero] at hst
      have hns : info.state ≠ some "succeeded" := by simp [hstate]
      simp only [pollLoop, hst, if_neg hns, if_pos hstate]
    | succ m =>
      have h0 : nonTerminalStatus (statuses i) = true := by
        simpa using hpre 0 (Nat.succ_pos m)
      cases hsi : statuses i with
      | none => rw [hsi] at h0; simp [nonTerminalStatus] at h0
      | some info0 =>
        rw [hsi] at h0
        obtain ⟨hns, hnf⟩ := nonTerminal_states h0
        have hrec := ih m (i + 1) info (by omega)
          (fun j hj => by
            have hx := hpre (j + 1) (by omega)
            rw [show i + 1 + j = i + (j + 1) from by omega]
            exact hx)
          (by rw [show i + 1 + m = i + (m + 1) from by omega]; exact hst)
          hstate
        simp only [pollLoop, hsi, if_neg hns, if_neg hnf]
        rw [hrec, show i + 1 + m + 1 = i + (m + 1) + 1 from by omega]

/-- **C6** — The polling loop: the status sequence
`[InProgress, InProgress, Succeeded]` yields success after exactly 3 status
queries; 60 consecutive non-terminal statuses exhaust the attempt budget
and yield the timeout after exactly 60 queries; a `failed` status yields the
ProcessingFailed error carrying the server-reported message, one query
after the non-terminal prefix. -/
theorem waitForProcessing_spec :
    waitForProcessing (fun i =>
        if i < 2 then some ⟨some "in_progress", none, none⟩
        else some ⟨some "succeeded", none, none⟩) = .success 3 ∧
    (∀ statuses : Nat → Option ProcessingInfo,
      (∀ i, i < 60 → nonTerminalStatus (statuses i) = true) →
      waitForProcessing statuses = .timeout 60) ∧
    (∀ (statuses : Nat → Option ProcessingInfo) (k : Nat)
        (info : ProcessingInfo) (msg : String), k < 60 →
      (∀ j, j < k → nonTerminalStatus (statuses j) = true) →
      statuses k = some info → info.state = some "failed" →
      info.errorMessage = some msg →
      waitForProcessing statuses = .processingFailed msg (k + 1)) := by
  refine ⟨by decide, fun statuses h => ?_,
    fun statuses k info msg hk hpre hst hstate hmsg => ?_⟩
  · have := pollLoop_timeout statuses 60 0 (fun j hj => by simpa using h j hj)
    simpa [waitForProcessing, maxAttempts] using this
  · have := pollLoop_failed statuses 60 k 0 info hk
      (fun j hj => by simpa using hpre j hj) (by simpa using hst) hstate
    simpa [waitForProcessing, maxAttempts, hmsg] using this

/-- Closed witness for `waitForProcessing_spec`: sixty `in_progress`
responses time out after 60 queries, and an immediate `failed` response
surfaces the server's message after one query. -/
theorem waitForProcessing_spec_witness :
    waitForProcessing
        (fun _ => some ⟨some "in_progress", none, none⟩) = .timeout 60 ∧
    waitForProcessing (fun i =>
        if i = 0 then some ⟨some "failed", some 5, some "boom"⟩
        else none) = .processingFailed "boom" 1 :=
  ⟨waitForProcessing_spec.2.1 _ (fun i _ => rfl),
   waitForProcessing_spec.2.2 _ 0 ⟨some "failed", some 5, some "boom"⟩
     "boom" (by norm_num)
     (fun j hj => absurd hj (Nat.not_lt_zero j)) rfl rfl rfl⟩

end XC
